import Mathlib

/-!
Verification development for the `dijkstrasp` repository (`src/spmain/sp.go`).

The Go program computes, over a set of points in the plane, a minimum
spanning tree (Prim) and a single-pair shortest path restricted to the
tree's edges (Dijkstra), then rasterizes both onto a 300 x 300 grid of
CSS-class labels.

Modelling conventions (shallow embedding):
* `float64` values are modelled by exact rationals (`Rat`).  All arithmetic
  the claims below exercise is chosen so that the corresponding IEEE-754
  computation is exact (small integers, quarters, halves), so the rational
  model and the Go float computation agree on those inputs.
* `math.MaxFloat64` is the exact rational value of the IEEE double
  `(2^53 - 1) * 2^971`.
* Go's `cmplx.Abs` (Euclidean norm) is modelled by the exact rational
  square root; inputs whose norm is irrational fall outside the rational
  model and yield `Pr.undef`.  All concrete inputs used below have exact
  rational norms.
* Go slice indexing panics on an out-of-range index; this is modelled by
  `Pr.crash`.  A returned `error` value is modelled in the result payload.
* Loops are given explicit fuel; exhausting fuel yields `Pr.undef`
  (it never happens on the concrete inputs below).
* The Go `PriorityQueue` is `map[int]*Item` whose key set is always
  `{0, ..., Len()-1}` (Push inserts at key `len`, Pop deletes key `len-1`,
  Swap exchanges two values).  It is therefore modelled by a `List Item`
  whose position `i` is the map entry with key `i`.  In particular the
  membership lookup `pq[w]` of the Go source tests `w < pq.Len()`, i.e.
  whether the *heap position* `w` exists, not whether vertex `w` is queued;
  the model reproduces this faithfully.
-/

set_option maxRecDepth 4000

namespace DijkstraSP

/-- Result of running a piece of Go code: a normal result, a runtime panic
(out-of-range index or nil dereference), or a computation that left the
rational model (irrational square root / exhausted fuel). -/
inductive Pr (α : Type) where
  | ok : α → Pr α
  | crash : Pr α
  | undef : Pr α
deriving Repr, DecidableEq

/-- Sequencing of embedded Go computations. -/
def Pr.bind {α β : Type} : Pr α → (α → Pr β) → Pr β
  | Pr.ok a, f => f a
  | Pr.crash, _ => Pr.crash
  | Pr.undef, _ => Pr.undef

/-- Map over a normal result. -/
def Pr.map {α β : Type} (f : α → β) : Pr α → Pr β
  | Pr.ok a => Pr.ok (f a)
  | Pr.crash => Pr.crash
  | Pr.undef => Pr.undef

/-- Whether the computation finished normally. -/
def Pr.isOk {α : Type} : Pr α → Bool
  | Pr.ok _ => true
  | _ => false

/-- Whether the computation panicked. -/
def Pr.isCrash {α : Type} : Pr α → Bool
  | Pr.crash => true
  | _ => false

/-- The float64 type of the Go source, modelled by exact rationals in
canonical form (positive denominator, coprime with the numerator), so
that structural equality is rational equality and all arithmetic reduces
inside the kernel. -/
structure F where
  num : Int
  den : Nat
deriving Repr, DecidableEq

/-- Canonical fraction `n / d` (sign on the numerator, reduced by the
gcd); `d = 0` yields 0 and never arises on the inputs used below. -/
def fmk (n d : Int) : F :=
  if d = 0 then ⟨0, 1⟩
  else
    let n1 := if d < 0 then -n else n
    let d1 := d.natAbs
    let g := Nat.gcd n1.natAbs d1
    ⟨n1.tdiv (g : Int), d1 / g⟩

instance (n : Nat) : OfNat F n := ⟨⟨(n : Int), 1⟩⟩

instance : NatCast F := ⟨fun n => ⟨(n : Int), 1⟩⟩

instance : IntCast F := ⟨fun i => ⟨i, 1⟩⟩

instance : Neg F := ⟨fun a => ⟨-a.num, a.den⟩⟩

instance : Add F :=
  ⟨fun a b => fmk (a.num * (b.den : Int) + b.num * (a.den : Int))
    ((a.den : Int) * (b.den : Int))⟩

instance : Sub F :=
  ⟨fun a b => fmk (a.num * (b.den : Int) - b.num * (a.den : Int))
    ((a.den : Int) * (b.den : Int))⟩

instance : Mul F :=
  ⟨fun a b => fmk (a.num * b.num) ((a.den : Int) * (b.den : Int))⟩

instance : Div F :=
  ⟨fun a b => fmk (a.num * (b.den : Int)) ((a.den : Int) * b.num)⟩

instance : LT F := ⟨fun a b => a.num * (b.den : Int) < b.num * (a.den : Int)⟩

instance (a b : F) : Decidable (a < b) :=
  inferInstanceAs (Decidable (a.num * (b.den : Int) < b.num * (a.den : Int)))

/-- Exact rational value of the IEEE-754 double `math.MaxFloat64`, that is
`(2^53 - 1) * 2^971`, written as a numeral so that it evaluates. -/
def maxFloat64 : F :=
  179769313486231570814527423731704356798070567525844996598917476803157260780028538760589558632766878171540458953514382464234321326889464182768467546703537516986049910576551282076245490090389328944075868508455133942304583236903222948165808559332123348274797826204144723168738177180919299881250404026184124858368

/-- Go's `int(x)` conversion from float64: truncation toward zero. -/
def goInt (q : F) : Int := q.num.tdiv ((q.den : Nat) : Int)

/-- One Newton step loop for the integer square root (structurally
recursive so that it evaluates in the kernel; the result is only ever
used after an exact-square check, so its precision is self-certifying). -/
def sqrtIter : Nat → Nat → Nat → Nat
  | 0, _, x => x
  | fuel + 1, n, x =>
    let x1 := (x + n / x) / 2
    if x1 < x then sqrtIter fuel n x1 else x

/-- Integer square root by Newton iteration. -/
def nsqrt (n : Nat) : Nat :=
  if n ≤ 1 then n else sqrtIter n n (n / 2 + 1)

/-- Checked read `xs[i]` of a Go slice: panics when out of range. -/
def getL {α : Type} (xs : List α) (i : Nat) : Pr α :=
  match xs.get? i with
  | some a => Pr.ok a
  | none => Pr.crash

/-- In-place update used to model `xs[i] = a` (the unchecked core). -/
def updL {α : Type} : List α → Nat → α → List α
  | [], _, _ => []
  | _ :: t, 0, a => a :: t
  | h :: t, n + 1, a => h :: updL t n a

/-- Checked write `xs[i] = a` of a Go slice: panics when out of range. -/
def setL {α : Type} (xs : List α) (i : Nat) (a : α) : Pr (List α) :=
  if i < xs.length then Pr.ok (updL xs i a) else Pr.crash

/-- Exact rational square root, when it exists. -/
def ratSqrt (q : F) : Option F :=
  if q < 0 then none
  else
    let sn := nsqrt q.num.toNat
    let sd := nsqrt q.den
    if sn * sn = q.num.toNat ∧ sd * sd = q.den then
      some (fmk (sn : Int) (sd : Int))
    else none

/-- A point of the complex plane (`complex128` of the source, used as x + iy). -/
structure Pt where
  x : F
  y : F
deriving Repr, DecidableEq

/-- Go's `cmplx.Abs (a - b)` on the rational model: the exact Euclidean
norm when rational, `Pr.undef` otherwise. -/
def cabs (dx dy : F) : Pr F :=
  match ratSqrt (dx * dx + dy * dy) with
  | some r => Pr.ok r
  | none => Pr.undef

/-- `Edge` of the source: the two vertex endpoints. -/
structure Edge where
  v : Nat
  w : Nat
deriving Repr, DecidableEq

/-- `e.v, e.w = e.w, e.v` of the source. -/
def edgeFlip (e : Edge) : Edge := ⟨e.w, e.v⟩

/-- `Item` of the source: an edge, the heap bookkeeping index, a distance. -/
structure Item where
  edge : Edge
  index : Int
  distance : F
deriving Repr, DecidableEq

/-- The distance of the item at heap position `i` (positions used by the
`container/heap` algorithms are always in range; out-of-range reads return
a junk value that is never observed). -/
def pqDist (pq : List Item) (i : Nat) : F :=
  match pq.get? i with
  | some it => it.distance
  | none => 0

/-- `PriorityQueue.Less` of the source. -/
def pqLess (pq : List Item) (i j : Nat) : Bool :=
  decide (pqDist pq i < pqDist pq j)

/-- `PriorityQueue.Swap` of the source: exchanges positions `i` and `j`
and maintains the `index` fields. -/
def pqSwap (pq : List Item) (i j : Nat) : List Item :=
  match pq.get? i, pq.get? j with
  | some a, some b =>
      updL (updL pq i { b with index := (i : Int) }) j { a with index := (j : Int) }
  | _, _ => pq

/-- `container/heap.up` (sift-up), fuelled: the index `j` strictly
decreases, so `pq.length + 1` fuel always suffices. -/
def heapUp : Nat → List Item → Nat → List Item
  | 0, pq, _ => pq
  | fuel + 1, pq, j =>
    if j = 0 then pq
    else
      let i := (j - 1) / 2
      if pqLess pq j i then heapUp fuel (pqSwap pq i j) i else pq

/-- `container/heap.down` (sift-down), fuelled; returns the final index as
the Go original does (to report whether the element moved). -/
def heapDown : Nat → List Item → Nat → Nat → List Item × Nat
  | 0, pq, i, _ => (pq, i)
  | fuel + 1, pq, i, n =>
    let j1 := 2 * i + 1
    if j1 ≥ n then (pq, i)
    else
      let j := if 2 * i + 2 < n ∧ pqLess pq (2 * i + 2) j1 then 2 * i + 2 else j1
      if pqLess pq j i then heapDown fuel (pqSwap pq i j) j n else (pq, i)

/-- `container/heap.Init`. -/
def heapInit (pq : List Item) : List Item :=
  (List.range (pq.length / 2)).reverse.foldl
    (fun acc i => (heapDown (acc.length + 1) acc i acc.length).1) pq

/-- `container/heap.Push` composed with `PriorityQueue.Push`: the new item
is stored at key `len` with `index = len`, then sifted up. -/
def heapPush (pq : List Item) (it : Item) : List Item :=
  let pq1 := pq ++ [{ it with index := (pq.length : Int) }]
  heapUp (pq1.length + 1) pq1 (pq1.length - 1)

/-- `container/heap.Pop` composed with `PriorityQueue.Pop`: swap the root
with the last key, sift down over the shortened range, remove and return
the entry at the last key (its `index` set to -1).  Popping an empty queue
dereferences missing map entries, i.e. panics. -/
def heapPop (pq : List Item) : Pr (Item × List Item) :=
  match pq with
  | [] => Pr.crash
  | _ =>
    let n := pq.length - 1
    let pq1 := pqSwap pq 0 n
    let pq2 := (heapDown (pq1.length + 1) pq1 0 n).1
    match pq2.get? n with
    | some it => Pr.ok ({ it with index := -1 }, pq2.take n)
    | none => Pr.crash

/-- `container/heap.Fix`. -/
def heapFix (pq : List Item) (i : Nat) : List Item :=
  let d := heapDown (pq.length + 1) pq i pq.length
  if d.2 > i then d.1 else heapUp (d.1.length + 1) d.1 i

/-- `PriorityQueue.update` as invoked by the source: the item found at map
key `w` has its distance overwritten, then `heap.Fix` runs at that item's
`index` field. -/
def pqUpdate (pq : List Item) (w : Nat) (d : F) : List Item :=
  match pq.get? w with
  | none => pq
  | some it => heapFix (updL pq w { it with distance := d }) it.index.toNat

/-- State mutated by `findMST`: the spanning tree (slot `w` holds the edge
to `w`'s parent), the visited marks, the best connection distances, the
priority queue, and (observation only) the sequence of popped vertices. -/
structure MState where
  mst : List (Option Edge)
  marked : List Bool
  distTo : List F
  pq : List Item
  pops : List Nat
deriving Repr

/-- One iteration of the `for w, dist := range p.graph[v]` body of
`findMST.visit` (sp.go lines 340-359). -/
def visitStep (v : Nat) (st : MState) (wd : Nat × F) : Pr MState :=
  let w := wd.1
  let dist := wd.2
  Pr.bind (getL st.marked w) fun mw =>
  if mw then Pr.ok st
  else
    Pr.bind (getL st.distTo w) fun dw =>
    if dist < dw then
      Pr.bind (setL st.mst w (some ⟨v, w⟩)) fun mst1 =>
      Pr.bind (setL st.distTo w dist) fun dt1 =>
      let st1 := { st with mst := mst1, distTo := dt1 }
      let pq1 := if w < st1.pq.length then pqUpdate st1.pq w dist
                 else heapPush st1.pq ⟨⟨v, w⟩, 0, dist⟩
      Pr.ok { st1 with pq := pq1 }
    else Pr.ok st

/-- Fold of `visitStep` over an enumerated adjacency row. -/
def visitFold (v : Nat) : MState → List (Nat × F) → Pr MState
  | st, [] => Pr.ok st
  | st, wd :: rest => Pr.bind (visitStep v st wd) fun st1 => visitFold v st1 rest

/-- `findMST.visit` (sp.go lines 337-360): mark `v`, then relax every
unmarked `w` against row `v` of the distance matrix. -/
def visitGo (graph : List (List F)) (v : Nat) (st : MState) : Pr MState :=
  Pr.bind (setL st.marked v true) fun mk =>
  Pr.bind (getL graph v) fun row =>
  visitFold v { st with marked := mk } row.enum

/-- The `for pq.Len() > 0` loop of `findMST` (sp.go lines 368-371). -/
def mstLoop (graph : List (List F)) : Nat → MState → Pr MState
  | 0, _ => Pr.undef
  | fuel + 1, st =>
    if st.pq.length = 0 then Pr.ok st
    else
      Pr.bind (heapPop st.pq) fun p =>
      let st1 := { st with pq := p.2, pops := st.pops ++ [p.1.edge.w] }
      Pr.bind (visitGo graph p.1.edge.w st1) fun st2 =>
      mstLoop graph fuel st2

/-- `findMST` (sp.go lines 325-374).  `location` is `p.location` (only its
length, the vertex count, is read); `graph` is `p.graph`.  The `pops` field
of the result records the vertex of each popped queue item, in order. -/
def findMSTGo (location : List Pt) (graph : List (List F)) : Pr MState :=
  let vertices := location.length
  let st0 : MState :=
    { mst := List.replicate vertices none
      marked := List.replicate vertices false
      distTo := List.replicate vertices maxFloat64
      pq := []
      pops := [] }
  Pr.bind (setL st0.distTo 0 maxFloat64) fun dt1 =>
  let st1 := { st0 with
    distTo := dt1
    pq := heapInit [⟨⟨0, 0⟩, 0, maxFloat64⟩] }
  mstLoop graph (vertices * vertices + 2) st1

/-- `findDistances` (sp.go lines 258-279): the symmetric matrix of pairwise
Euclidean distances, diagonal set to `math.MaxFloat64`. -/
def findDistancesGo (location : List Pt) : Pr (List (List F)) :=
  let verts := location.length
  (List.range verts).foldl
    (fun acc i =>
      Pr.bind acc fun rows =>
      Pr.bind ((List.range verts).foldl
        (fun racc j =>
          Pr.bind racc fun row =>
          if i = j then Pr.ok (row ++ [maxFloat64])
          else
            Pr.bind (getL location i) fun pi =>
            Pr.bind (getL location j) fun pj =>
            Pr.bind (cabs (pi.x - pj.x) (pi.y - pj.y)) fun d =>
            Pr.ok (row ++ [d]))
        (Pr.ok ([] : List F))) fun row =>
      Pr.ok (rows ++ [row]))
    (Pr.ok ([] : List (List F)))

/-- State mutated by `findSP`: the edge store shared (by pointer in Go)
between `dsp.mst`, the adjacency lists and `edgeTo`; adjacency lists and
`edgeTo` hold slot indices into that store. -/
structure SpState where
  edges : List (Option Edge)
  adj : List (List Nat)
  edgeTo : List (Option Nat)
  distTo : List F
  pq : List Item
  source : Nat
  target : Nat
deriving Repr

/-- One iteration of the `for _, e := range dsp.adj[v]` body of
`findSP.relax` (sp.go lines 542-565): read the shared edge, normalise its
orientation in place when `e.w == v`, then relax vertex `w`. -/
def relaxEdge (graph : List (List F)) (v : Nat) (st : SpState) (s : Nat) :
    Pr SpState :=
  Pr.bind (getL st.edges s) fun oe =>
  match oe with
  | none => Pr.crash
  | some e =>
    let w := if e.w = v then e.v else e.w
    Pr.bind
      (if e.w = v then setL st.edges s (some (edgeFlip e)) else Pr.ok st.edges)
      fun edges1 =>
    let st1 := { st with edges := edges1 }
    Pr.bind (getL st1.distTo v) fun dv =>
    Pr.bind (getL graph v) fun row =>
    Pr.bind (getL row w) fun gvw =>
    let newDistance := dv + gvw
    Pr.bind (getL st1.distTo w) fun dw =>
    if dw > newDistance then
      Pr.bind (setL st1.edgeTo w (some s)) fun et1 =>
      Pr.bind (setL st1.distTo w (dv + gvw)) fun dt1 =>
      let st2 := { st1 with edgeTo := et1, distTo := dt1 }
      let pq1 := if w < st2.pq.length then pqUpdate st2.pq w newDistance
                 else heapPush st2.pq ⟨⟨v, w⟩, 0, newDistance⟩
      Pr.ok { st2 with pq := pq1 }
    else Pr.ok st1

/-- Fold of `relaxEdge` over the adjacency list of `v`. -/
def relaxFold (graph : List (List F)) (v : Nat) :
    SpState → List Nat → Pr SpState
  | st, [] => Pr.ok st
  | st, s :: rest => Pr.bind (relaxEdge graph v st s) fun st1 =>
      relaxFold graph v st1 rest

/-- `findSP.relax` (sp.go lines 540-566). -/
def relaxGo (graph : List (List F)) (v : Nat) (st : SpState) : Pr SpState :=
  Pr.bind (getL st.adj v) fun slots => relaxFold graph v st slots

/-- The `for pq.Len() > 0` loop of `findSP` (sp.go lines 574-584): pop,
early-exit (draining the queue) when the popped item's vertex is the
target, otherwise relax. -/
def spLoop (graph : List (List F)) (target : Nat) :
    Nat → SpState → Pr SpState
  | 0, _ => Pr.undef
  | fuel + 1, st =>
    if st.pq.length = 0 then Pr.ok st
    else
      Pr.bind (heapPop st.pq) fun p =>
      let st1 := { st with pq := p.2 }
      if p.1.edge.w = target then Pr.ok { st1 with pq := [] }
      else
        Pr.bind (relaxGo graph p.1.edge.w st1) fun st2 =>
        spLoop graph target fuel st2

/-- Construction of the adjacency lists (sp.go lines 531-538): every tree
slot `s ≥ 1` is appended to the lists of both of its endpoints.  The Go
code dereferences each `*Edge`, so a `nil` slot panics. -/
def buildAdj (vertices : Nat) (edges : List (Option Edge)) :
    Pr (List (List Nat)) :=
  (List.range edges.length).foldl
    (fun acc s =>
      if s = 0 then acc
      else
        Pr.bind acc fun adj =>
        Pr.bind (getL edges s) fun oe =>
        match oe with
        | none => Pr.crash
        | some e =>
          Pr.bind (getL adj e.v) fun lv =>
          Pr.bind (setL adj e.v (lv ++ [s])) fun adj1 =>
          Pr.bind (getL adj1 e.w) fun lw =>
          setL adj1 e.w (lw ++ [s]))
    (Pr.ok (List.replicate vertices ([] : List Nat)))

/-- The error message of sp.go line 518. -/
def invalidEndpointsMsg : String := "source and/or target vertices are invalid"

/-- `findSP` (sp.go lines 496-587), after the HTTP-form parsing that the
spec treats as the caller's concern: `source` and `target` are the already
parsed Go `int` values.  Returns `Except.error` for the returned Go error
(endpoint validation), otherwise the final state. -/
def findSPGo (graph : List (List F)) (mst : List (Option Edge))
    (location : List Pt) (source target : Int) :
    Pr (Except String SpState) :=
  if source = target ∨ source < 0 ∨ target < 0 ∨
      source > (location.length : Int) - 1 ∨
      target > (location.length : Int) - 1 then
    Pr.ok (Except.error invalidEndpointsMsg)
  else
    Pr.bind (buildAdj location.length mst) fun adj =>
    let st0 : SpState :=
      { edges := mst
        adj := adj
        edgeTo := List.replicate location.length none
        distTo := List.replicate location.length maxFloat64
        pq := []
        source := source.toNat
        target := target.toNat }
    Pr.bind (setL st0.distTo source.toNat 0) fun dt1 =>
    let st1 := { st0 with
      distTo := dt1
      pq := heapInit [⟨⟨source.toNat, source.toNat⟩, 0, 0⟩] }
    Pr.map Except.ok
      (spLoop graph target.toNat
        ((location.length + 1) * (location.length + 1)) st1)

/-- `rows` constant of the source (sp.go line 36). -/
def rows : Nat := 300

/-- `columns` constant of the source (sp.go line 37). -/
def columns : Nat := rows

/-- `xlabels` constant of the source (sp.go line 38). -/
def xlabels : Nat := 11

/-- `ylabels` constant of the source (sp.go line 39). -/
def ylabels : Nat := 11

/-- The min/max endpoints of the Euclidean graph (`Endpoints` of the source). -/
structure Endpoints where
  xmin : F
  xmax : F
  ymin : F
  ymax : F
deriving Repr, DecidableEq

/-- The plotting grid: `plot.Grid` is a Go slice of `rows*columns` strings,
modelled as a function from flat index to label (initially `""`, the Go
zero value). -/
def GridM : Type := Nat → String

/-- Checked write `p.plot.Grid[i] = lbl` at a possibly negative flat index
(Go panics when the index is outside `[0, rows*columns)`). -/
def gridSet (g : GridM) (i : Int) (lbl : String) : Pr GridM :=
  if 0 ≤ i ∧ i < ((rows * columns : Nat) : Int) then
    Pr.ok (fun j => if j = i.toNat then lbl else g j)
  else Pr.crash

/-- The five unguarded highlight writes shared by the MST-root block
(sp.go lines 459-463) and the SP endpoint blocks (lines 671-675 and
685-689): center, below, above, right, left, in source order. -/
def markPlus (g : GridM) (row col : Int) (lbl : String) : Pr GridM :=
  Pr.bind (gridSet g (row * (columns : Int) + col) lbl) fun g1 =>
  Pr.bind (gridSet g1 ((row + 1) * (columns : Int) + col) lbl) fun g2 =>
  Pr.bind (gridSet g2 ((row - 1) * (columns : Int) + col) lbl) fun g3 =>
  Pr.bind (gridSet g3 (row * (columns : Int) + col + 1) lbl) fun g4 =>
  gridSet g4 (row * (columns : Int) + col - 1) lbl

/-- Grid row of a y coordinate: `int((ymax-y)*yscale + .5)`. -/
def rowOf (ep : Endpoints) (y : F) : Int :=
  goInt ((ep.ymax - y) * (((rows : F) - 1) / (ep.ymax - ep.ymin)) + 1/2)

/-- Grid column of an x coordinate: `int((x-xmin)*xscale + .5)`. -/
def colOf (ep : Endpoints) (x : F) : Int :=
  goInt ((x - ep.xmin) * (((columns : F) - 1) / (ep.xmax - ep.xmin)) + 1/2)

/-- The interpolation loop shared by sp.go lines 434-440 and 633-639:
`ncells` samples starting at `(x, y)` advancing by `(stepX, stepY)`, each
mapped to a grid cell and labelled `lbl`. -/
def drawSamples (ep : Endpoints) (lbl : String) :
    Nat → GridM → F → F → F → F → Pr GridM
  | 0, g, _, _, _, _ => Pr.ok g
  | i + 1, g, x, y, stepX, stepY =>
    Pr.bind (gridSet g (rowOf ep y * (columns : Int) + colOf ep x) lbl) fun g1 =>
    drawSamples ep lbl i g1 (x + stepX) (y + stepY) stepX stepY

/-- Number of interpolation points of an edge:
`int(columns * lenEdge / lenEP)`. -/
def ncellsOf (lenEdge lenEP : F) : Int :=
  goInt ((columns : F) * lenEdge / lenEP)

/-- One iteration of the `for _, e := range p.mst[1:]` body of `plotMST`
(sp.go lines 411-451): interpolate the edge with label `edge`, then mark
both endpoint cells `vertex`.  Returns the updated grid and the running
MST distance. -/
def plotEdgeGo (ep : Endpoints) (lenEP : F) (location : List Pt)
    (g : GridM) (distance : F) (e : Edge) : Pr (GridM × F) :=
  Pr.bind (getL location e.v) fun pb =>
  Pr.bind (getL location e.w) fun pe =>
  Pr.bind (cabs (pe.x - pb.x) (pe.y - pb.y)) fun lenEdge =>
  let distance1 := distance + lenEdge
  let ncells := ncellsOf lenEdge lenEP
  let stepX := (pe.x - pb.x) / (ncells : F)
  let stepY := (pe.y - pb.y) / (ncells : F)
  Pr.bind (drawSamples ep "edge" ncells.toNat g pb.x pb.y stepX stepY) fun g1 =>
  Pr.bind (gridSet g1 (rowOf ep pb.y * (columns : Int) + colOf ep pb.x) "vertex")
    fun g2 =>
  Pr.bind (gridSet g2 (rowOf ep pe.y * (columns : Int) + colOf ep pe.x) "vertex")
    fun g3 =>
  Pr.ok (g3, distance1)

/-- Fold of `plotEdgeGo` over the tree slots `1..`, panicking on a `nil`
slot as the Go dereference would. -/
def plotEdgesFold (ep : Endpoints) (lenEP : F) (location : List Pt) :
    GridM × F → List (Option Edge) → Pr (GridM × F)
  | gd, [] => Pr.ok gd
  | gd, oe :: rest =>
    match oe with
    | none => Pr.crash
    | some e =>
      Pr.bind (plotEdgeGo ep lenEP location gd.1 gd.2 e) fun gd1 =>
      plotEdgesFold ep lenEP location gd1 rest

/-- Two-decimal fixed-point rendering standing in for Go's
`fmt.Sprintf("%.2f", x)` (exact rational rounding, half away from zero;
no claim below depends on the rendered digits). -/
def fmtF2 (q : F) : String :=
  let neg := q < 0
  let a := if neg then -q else q
  let b := a * 100 + 1/2
  let m := (b.num.fdiv ((b.den : Nat) : Int)).toNat
  let ip := m / 100
  let fp := m % 100
  let fps := if fp < 10 then "0" ++ toString fp else toString fp
  (if neg then "-" else "") ++ toString ip ++ "." ++ fps

/-- Rendering of an `(x, y)` location, standing in for
`fmt.Sprintf("(%.2f, %.2f)", x, y)`. -/
def fmtPt (x y : F) : String :=
  "(" ++ fmtF2 x ++ ", " ++ fmtF2 y ++ ")"

/-- The axis-label loop of sp.go lines 469-472 and 477-480. -/
def axisLabels (n : Nat) (start incr : F) : List String :=
  ((List.range n).foldl (fun acc _ => (acc.1 ++ [fmtF2 acc.2], acc.2 + incr))
    (([] : List String), start)).1

/-- The `PlotT` fields the core writes (`Status` belongs to the caller). -/
structure PlotM where
  grid : GridM
  xlabel : List String
  ylabel : List String
  distance : String
  vertices : String
  xminS : String
  xmaxS : String
  yminS : String
  ymaxS : String
  startLocation : String
  sourceLocation : String
  targetLocation : String
  sourceS : String
  targetS : String
  distanceSP : String

/-- The empty `PlotT` allocated at sp.go line 387. -/
def emptyPlot : PlotM :=
  { grid := fun _ => ""
    xlabel := [], ylabel := []
    distance := "", vertices := ""
    xminS := "", xmaxS := "", yminS := "", ymaxS := ""
    startLocation := "", sourceLocation := "", targetLocation := ""
    sourceS := "", targetS := "", distanceSP := "" }

/-- `plotMST` (sp.go lines 377-493): rasterize every tree edge, mark the
root with the `startvertexMSS` plus-neighbourhood, then fill the axis
labels and summary fields. -/
def plotMSTGo (ep : Endpoints) (location : List Pt)
    (mst : List (Option Edge)) : Pr PlotM :=
  Pr.bind (cabs (ep.xmax - ep.xmin) (ep.ymax - ep.ymin)) fun lenEP =>
  Pr.bind (plotEdgesFold ep lenEP location ((emptyPlot).grid, 0) (mst.drop 1))
    fun gd =>
  Pr.bind (getL location 0) fun p0 =>
  Pr.bind (markPlus gd.1 (rowOf ep p0.y) (colOf ep p0.x) "startvertexMSS")
    fun g1 =>
  Pr.ok { emptyPlot with
    grid := g1
    startLocation := fmtPt p0.x p0.y
    xlabel := axisLabels xlabels ep.xmin ((ep.xmax - ep.xmin) / ((xlabels : F) - 1))
    ylabel := axisLabels ylabels ep.ymin ((ep.ymax - ep.ymin) / ((ylabels : F) - 1))
    distance := fmtF2 gd.2
    vertices := toString location.length
    xminS := fmtF2 ep.xmin
    xmaxS := fmtF2 ep.xmax
    yminS := fmtF2 ep.ymin
    ymaxS := fmtF2 ep.ymax }

/-- The shortest-path walk loop of `plotSP` (sp.go lines 611-662): draw the
current edge (`edgeSP` samples, `vertex` endpoints), stop when the edge's
`v` endpoint is the source (returning the slot of the first edge), else
step to `edgeTo[v]`, normalising its orientation in place.  The state is
the current slot, the shared edge store, the grid, and the accumulated
path distance. -/
def walkLoop (ep : Endpoints) (lenEP : F) (location : List Pt) (source : Nat)
    (edgeTo : List (Option Nat)) :
    Nat → Nat → List (Option Edge) → GridM → F →
    Pr (Nat × List (Option Edge) × GridM × F)
  | 0, _, _, _, _ => Pr.undef
  | fuel + 1, s, edges, g, dist =>
    Pr.bind (getL edges s) fun oe =>
    match oe with
    | none => Pr.crash
    | some e =>
      Pr.bind (getL location e.v) fun pb =>
      Pr.bind (getL location e.w) fun pe =>
      Pr.bind (cabs (pe.x - pb.x) (pe.y - pb.y)) fun lenEdge =>
      let dist1 := dist + lenEdge
      let ncells := ncellsOf lenEdge lenEP
      let stepX := (pe.x - pb.x) / (ncells : F)
      let stepY := (pe.y - pb.y) / (ncells : F)
      Pr.bind (drawSamples ep "edgeSP" ncells.toNat g pb.x pb.y stepX stepY)
        fun g1 =>
      Pr.bind
        (gridSet g1 (rowOf ep pb.y * (columns : Int) + colOf ep pb.x) "vertex")
        fun g2 =>
      Pr.bind
        (gridSet g2 (rowOf ep pe.y * (columns : Int) + colOf ep pe.x) "vertex")
        fun g3 =>
      if e.v = source then Pr.ok (s, edges, g3, dist1)
      else
        Pr.bind (getL edgeTo e.v) fun ons =>
        match ons with
        | none => Pr.crash
        | some ns =>
          Pr.bind (getL edges ns) fun one2 =>
          match one2 with
          | none => Pr.crash
          | some e2 =>
            Pr.bind
              (if e2.w ≠ e.v then setL edges ns (some (edgeFlip e2))
               else Pr.ok edges) fun edges1 =>
            walkLoop ep lenEP location source edgeTo fuel ns edges1 g3 dist1

/-- The state `plotSP` works on: the shared edge store, the predecessor
slots and distances from `findSP`, the vertex locations, the resolved
endpoints, the graph bounds, and the plot object produced by `plotMST`. -/
structure DspIn where
  edges : List (Option Edge)
  edgeTo : List (Option Nat)
  distTo : List F
  location : List Pt
  source : Nat
  target : Nat
  ep : Endpoints
  plot : PlotM

/-- What a `plotSP` call leaves behind: the (possibly reoriented) edge
store, the plot object, and the returned Go error if any.  A `some`
message models the `return fmt.Errorf(...)` path, on which nothing was
mutated. -/
structure SpPlotOut where
  edges : List (Option Edge)
  plot : PlotM
  errMsg : Option String

/-- The error message of sp.go line 593. -/
def noPathMsg (target : Nat) : String :=
  "distance to vertex " ++ toString target ++ " not found"

/-- `plotSP` (sp.go lines 590-699): the defensive sentinel check, then the
walk from target to source, then the `vertexSP2`/`vertexSP1` endpoint
highlights and the summary fields. -/
def plotSPGo (dsp : DspIn) : Pr SpPlotOut :=
  if dsp.distTo.length = 0 then
    Pr.ok ⟨dsp.edges, dsp.plot, some (noPathMsg dsp.target)⟩
  else
    Pr.bind (getL dsp.distTo dsp.target) fun dtgt =>
    if dtgt = maxFloat64 then
      Pr.ok ⟨dsp.edges, dsp.plot, some (noPathMsg dsp.target)⟩
    else
      Pr.bind (cabs (dsp.ep.xmax - dsp.ep.xmin) (dsp.ep.ymax - dsp.ep.ymin))
        fun lenEP =>
      Pr.bind (getL dsp.edgeTo dsp.target) fun os0 =>
      match os0 with
      | none => Pr.crash
      | some s0 =>
        Pr.bind
          (walkLoop dsp.ep lenEP dsp.location dsp.source dsp.edgeTo
            (dsp.location.length + 1) s0 dsp.edges dsp.plot.grid 0)
          fun wr =>
        let firstSlot := wr.1
        let edges1 := wr.2.1
        let g3 := wr.2.2.1
        let dist := wr.2.2.2
        Pr.bind (getL dsp.edgeTo dsp.target) fun ose =>
        match ose with
        | none => Pr.crash
        | some se =>
          Pr.bind (getL edges1 se) fun oet =>
          match oet with
          | none => Pr.crash
          | some et =>
            Pr.bind (getL dsp.location et.w) fun ptgt =>
            Pr.bind
              (markPlus g3 (rowOf dsp.ep ptgt.y) (colOf dsp.ep ptgt.x)
                "vertexSP2") fun g4 =>
            Pr.bind (getL edges1 firstSlot) fun ofe =>
            match ofe with
            | none => Pr.crash
            | some fe =>
              Pr.bind (getL dsp.location fe.v) fun psrc =>
              Pr.bind
                (markPlus g4 (rowOf dsp.ep psrc.y) (colOf dsp.ep psrc.x)
                  "vertexSP1") fun g5 =>
              Pr.ok
                { edges := edges1
                  plot := { dsp.plot with
                    grid := g5
                    targetLocation := fmtPt ptgt.x ptgt.y
                    targetS := toString et.w
                    sourceLocation := fmtPt psrc.x psrc.y
                    sourceS := toString fe.v
                    distanceSP := fmtF2 dist }
                  errMsg := none }

/-- One shortest-path query as `handleDijkstraSP` performs it on an
already built tree (sp.go lines 751-773): `findSP` (which validates the
endpoints and mutates the shared edges), then `plotMST` on the mutated
tree, then `plotSP` overlaying the path.  A validation error is
propagated. -/
def spQueryGo (ep : Endpoints) (location : List Pt) (graph : List (List F))
    (mst : List (Option Edge)) (source target : Int) :
    Pr (Except String SpPlotOut) :=
  Pr.bind (findSPGo graph mst location source target) fun r =>
  match r with
  | Except.error m => Pr.ok (Except.error m)
  | Except.ok sp =>
    Pr.bind (plotMSTGo ep location sp.edges) fun pm =>
    Pr.map Except.ok
      (plotSPGo
        { edges := sp.edges
          edgeTo := sp.edgeTo
          distTo := sp.distTo
          location := location
          source := sp.source
          target := sp.target
          ep := ep
          plot := pm })

/-! ### Projections used to state the claims -/

/-- Pop trace of a `findMST` run (empty when the run did not finish). -/
def mstPops (r : Pr MState) : List Nat :=
  match r with
  | Pr.ok s => s.pops
  | _ => []

/-- Tree slot `i` of a `findMST` run. -/
def mstSlot (r : Pr MState) (i : Nat) : Option (Option Edge) :=
  match r with
  | Pr.ok s => s.mst.get? i
  | _ => none

/-- Whether a `findSP` run returned the endpoint-validation error of
sp.go line 518. -/
def isInvalidEndpoints (r : Pr (Except String SpState)) : Bool :=
  match r with
  | Pr.ok (Except.error m) => decide (m = invalidEndpointsMsg)
  | _ => false

/-- Grid cell `i` of a finished `plotMST` run. -/
def gridAt (r : Pr PlotM) (i : Nat) : Option String :=
  match r with
  | Pr.ok pm => some (pm.grid i)
  | _ => none

/-- The `plotSP` error outcome of a finished query: `some none` for a
drawn path, `some (some msg)` for a returned `plotSP` error. -/
def queryErr (r : Pr (Except String SpPlotOut)) : Option (Option String) :=
  match r with
  | Pr.ok (Except.ok o) => some o.errMsg
  | _ => none

/-- The `DistanceSP` field of a finished query. -/
def queryDistSP (r : Pr (Except String SpPlotOut)) : Option String :=
  match r with
  | Pr.ok (Except.ok o) => some o.plot.distanceSP
  | _ => none

/-- The edge store of a finished query. -/
def queryEdges (r : Pr (Except String SpPlotOut)) : List (Option Edge) :=
  match r with
  | Pr.ok (Except.ok o) => o.edges
  | _ => []

/-- Whether a query finished normally. -/
def queryOkB (r : Pr (Except String SpPlotOut)) : Bool :=
  match r with
  | Pr.ok (Except.ok _) => true
  | _ => false

/-- Whether two tree slots hold the same unordered endpoint pair
(`none` matching `none`). -/
def sameEndsB : Option (Option Edge) → Option (Option Edge) → Bool
  | none, none => true
  | some none, some none => true
  | some (some e), some (some f) =>
      (decide (f.v = e.v) && decide (f.w = e.w)) ||
      (decide (f.v = e.w) && decide (f.w = e.v))
  | _, _ => false

/-- Slotwise unordered-pair agreement of two edge stores. -/
def EndsRel (xs ys : List (Option Edge)) : Prop :=
  ∀ i, sameEndsB (xs.get? i) (ys.get? i) = true

/-! ### Concrete instances exercising the claims

All coordinates are chosen so that every float64 computation the Go
program would perform on them is exact (integers, quarters and halves;
the graph diagonal is the 3-4-5 triple 1196-897-1495), hence the rational
model below computes exactly the Go values. -/

/-- Euclidean bounds (0,0)-(1196,897): both scale factors (299/1196 = 1/4
and 299/897 = 1/3) and the diagonal length 1495 are float-exact. -/
def epB : Endpoints := ⟨0, 1196, 0, 897⟩

/-- Three dummy locations (only the vertex count is read by `findMST`). -/
def locs3 : List Pt := [⟨0, 0⟩, ⟨0, 0⟩, ⟨0, 0⟩]

/-- Distance matrix on 3 vertices with d(0,1) = 1, d(0,2) = 3, d(1,2) = 1:
after vertex 1 is popped, the queue still holds vertex 2's item at heap
key 0, so the membership probe `pq[2]` fails and a duplicate item for
vertex 2 is pushed. -/
def g3 : List (List F) :=
  [[maxFloat64, 1, 3], [1, maxFloat64, 1], [3, 1, maxFloat64]]

/-- Three collinear vertices on grid row 150 at x = 0, 20, 75
(columns 0, 5, 19). -/
def locs7 : List Pt := [⟨0, 897/2⟩, ⟨20, 897/2⟩, ⟨75, 897/2⟩]

/-- Star spanning tree rooted at 0 with edges {0,1} and {0,2}: the edge
{0,2} is rasterized after {0,1} and its interpolation passes through
vertex 1's cell. -/
def mst7 : List (Option Edge) := [none, some ⟨0, 1⟩, some ⟨0, 2⟩]

/-- Six vertices on grid row 150: a path 0-1-5 and a star 5-{2,3,4}.
All pairwise x-distances are float-exact. -/
def locs6 : List Pt :=
  [⟨0, 897/2⟩, ⟨80, 897/2⟩, ⟨400, 897/2⟩, ⟨420, 897/2⟩, ⟨440, 897/2⟩,
   ⟨160, 897/2⟩]

/-- The spanning tree 0-1, 1-5, 5-2, 5-3, 5-4 in parent-slot form
(slot 0 empty; slot `i` connects `i` to its parent). -/
def mst6 : List (Option Edge) :=
  [none, some ⟨0, 1⟩, some ⟨5, 2⟩, some ⟨5, 3⟩, some ⟨5, 4⟩, some ⟨1, 5⟩]

/-- The distance matrix `findDistances` builds from `locs6`. -/
def g6 : List (List F) :=
  [[maxFloat64, 80, 400, 420, 440, 160],
   [80, maxFloat64, 320, 340, 360, 80],
   [400, 320, maxFloat64, 20, 40, 240],
   [420, 340, 20, maxFloat64, 20, 260],
   [440, 360, 40, 20, maxFloat64, 280],
   [160, 80, 240, 260, 280, maxFloat64]]

/-- A `plotSP` input whose target distance still holds the sentinel. -/
def dspSentinel : DspIn :=
  { edges := [], edgeTo := [], distTo := [maxFloat64], location := []
    source := 0, target := 0, ep := epB, plot := emptyPlot }

/-- A `plotSP` input with an empty distance array (as after a failed
`findSP`). -/
def dspNoDist : DspIn :=
  { edges := [], edgeTo := [], distTo := [], location := []
    source := 0, target := 0, ep := epB, plot := emptyPlot }

/-- Whether both endpoint cells of the edge {0,1} of `locs7` hold
`vertex` after one edge-plot step. -/
def edgeVertexCellsB (r : Pr (GridM × F)) : Bool :=
  match r with
  | Pr.ok out =>
      decide (out.1 (rowOf epB (897/2) * (columns : Int) +
        colOf epB 20).toNat = "vertex") &&
      decide (out.1 (rowOf epB (897/2) * (columns : Int) +
        colOf epB 0).toNat = "vertex")
  | _ => false

/-! ### Generic inversion and list lemmas -/

theorem bind_ok {α β : Type} {a : Pr α} {f : α → Pr β} {b : β}
    (h : Pr.bind a f = Pr.ok b) : ∃ x, a = Pr.ok x ∧ f x = Pr.ok b := by
  cases a with
  | ok x => exact ⟨x, rfl, h⟩
  | crash => exact absurd h (by simp [Pr.bind])
  | undef => exact absurd h (by simp [Pr.bind])

theorem map_ok {α β : Type} {g : α → β} {a : Pr α} {b : β}
    (h : Pr.map g a = Pr.ok b) : ∃ x, a = Pr.ok x ∧ g x = b := by
  cases a with
  | ok x => exact ⟨x, rfl, by simpa [Pr.map] using h⟩
  | crash => exact absurd h (by simp [Pr.map])
  | undef => exact absurd h (by simp [Pr.map])

theorem getL_ok {α : Type} {xs : List α} {i : Nat} {a : α}
    (h : getL xs i = Pr.ok a) : xs.get? i = some a := by
  unfold getL at h
  cases hg : xs.get? i with
  | none => rw [hg] at h; exact absurd h (by simp)
  | some b => rw [hg] at h; cases h; rfl

theorem setL_ok {α : Type} {xs ys : List α} {i : Nat} {a : α}
    (h : setL xs i a = Pr.ok ys) : ys = updL xs i a ∧ i < xs.length := by
  unfold setL at h
  by_cases hi : i < xs.length
  · rw [if_pos hi] at h; cases h; exact ⟨rfl, hi⟩
  · rw [if_neg hi] at h; exact absurd h (by simp)

theorem updL_length {α : Type} (xs : List α) (i : Nat) (a : α) :
    (updL xs i a).length = xs.length := by
  induction xs generalizing i with
  | nil => rfl
  | cons h t ih => cases i with
    | zero => rfl
    | succ n => simpa [updL] using ih n

theorem updL_get?_eq {α : Type} {xs : List α} {i : Nat} (a : α)
    (h : i < xs.length) : (updL xs i a).get? i = some a := by
  induction xs generalizing i with
  | nil => simp at h
  | cons x t ih => cases i with
    | zero => rfl
    | succ n => simpa [updL] using ih (by simpa using h)

theorem updL_get?_ne {α : Type} (xs : List α) {i j : Nat} (a : α)
    (h : i ≠ j) : (updL xs i a).get? j = xs.get? j := by
  induction xs generalizing i j with
  | nil => cases i <;> rfl
  | cons x t ih => cases i with
    | zero => cases j with
      | zero => exact absurd rfl h
      | succ m => rfl
    | succ n => cases j with
      | zero => rfl
      | succ m => simpa [updL] using ih (fun hc => h (by rw [hc]))

/-! ### Unordered endpoint pairs (claim C9 infrastructure) -/

theorem sameEndsB_refl (a : Option (Option Edge)) : sameEndsB a a = true := by
  match a with
  | none => rfl
  | some none => rfl
  | some (some e) => simp [sameEndsB]

theorem sameEndsB_trans {a b c : Option (Option Edge)}
    (h1 : sameEndsB a b = true) (h2 : sameEndsB b c = true) :
    sameEndsB a c = true := by
  match a, b, c with
  | none, none, none => rfl
  | some none, some none, some none => rfl
  | some (some e), some (some f), some (some g) =>
    simp only [sameEndsB, Bool.or_eq_true, Bool.and_eq_true, decide_eq_true_eq]
      at h1 h2 ⊢
    rcases h1 with ⟨hv, hw⟩ | ⟨hv, hw⟩ <;> rcases h2 with ⟨gv, gw⟩ | ⟨gv, gw⟩ <;>
      simp_all
  | none, none, some _ => exact absurd h2 (by simp [sameEndsB])
  | none, some _, _ => exact absurd h1 (by simp [sameEndsB])
  | some none, some none, none => exact absurd h2 (by simp [sameEndsB])
  | some none, some (some _), _ => exact absurd h1 (by simp [sameEndsB])
  | some none, none, _ => exact absurd h1 (by simp [sameEndsB])
  | some (some _), some none, _ => exact absurd h1 (by simp [sameEndsB])
  | some (some _), none, _ => exact absurd h1 (by simp [sameEndsB])
  | some (some _), some (some _), none => exact absurd h2 (by simp [sameEndsB])
  | some (some _), some (some _), some none =>
    exact absurd h2 (by simp [sameEndsB])

theorem endsRel_refl (xs : List (Option Edge)) : EndsRel xs xs :=
  fun i => sameEndsB_refl (xs.get? i)

theorem endsRel_trans {xs ys zs : List (Option Edge)}
    (h1 : EndsRel xs ys) (h2 : EndsRel ys zs) : EndsRel xs zs :=
  fun i => sameEndsB_trans (h1 i) (h2 i)

theorem endsRel_flip {xs : List (Option Edge)} {s : Nat} {e : Edge}
    (h : xs.get? s = some (some e)) :
    EndsRel xs (updL xs s (some (edgeFlip e))) := by
  intro i
  by_cases hi : s = i
  · subst hi
    rw [h, updL_get?_eq _ (by
      have := List.get?_eq_some.mp h
      exact this.choose)]
    simp [sameEndsB, edgeFlip]
  · rw [updL_get?_ne _ _ hi]
    exact sameEndsB_refl _

/-! ### The shared edge store only ever has single slots flipped -/

theorem relaxEdge_ends {graph : List (List F)} {v : Nat} {st : SpState}
    {s : Nat} {st' : SpState} (h : relaxEdge graph v st s = Pr.ok st') :
    EndsRel st.edges st'.edges := by
  unfold relaxEdge at h
  obtain ⟨oe, hoe, h⟩ := bind_ok h
  cases oe with
  | none => exact Pr.noConfusion h
  | some e =>
    obtain ⟨edges1, he1, h⟩ := bind_ok h
    have hrel : EndsRel st.edges edges1 := by
      by_cases hew : e.w = v
      · rw [if_pos hew] at he1
        obtain ⟨hu, _⟩ := setL_ok he1
        subst hu
        exact endsRel_flip (getL_ok hoe)
      · rw [if_neg hew] at he1
        cases he1
        exact endsRel_refl _
    obtain ⟨dv, _, h⟩ := bind_ok h
    obtain ⟨row, _, h⟩ := bind_ok h
    obtain ⟨gvw, _, h⟩ := bind_ok h
    obtain ⟨dw, _, h⟩ := bind_ok h
    split at h
    · obtain ⟨et1, _, h⟩ := bind_ok h
      obtain ⟨dt1, _, h⟩ := bind_ok h
      cases h
      exact hrel
    · cases h
      exact hrel

theorem relaxFold_ends {graph : List (List F)} {v : Nat}
    {slots : List Nat} {st st' : SpState}
    (h : relaxFold graph v st slots = Pr.ok st') :
    EndsRel st.edges st'.edges := by
  induction slots generalizing st with
  | nil => unfold relaxFold at h; cases h; exact endsRel_refl _
  | cons s rest ih =>
    unfold relaxFold at h
    obtain ⟨st1, h1, h⟩ := bind_ok h
    exact endsRel_trans (relaxEdge_ends h1) (ih h)

theorem relaxGo_ends {graph : List (List F)} {v : Nat} {st st' : SpState}
    (h : relaxGo graph v st = Pr.ok st') : EndsRel st.edges st'.edges := by
  unfold relaxGo at h
  obtain ⟨slots, _, h⟩ := bind_ok h
  exact relaxFold_ends h

theorem spLoop_ends {graph : List (List F)} {target : Nat} :
    ∀ {fuel : Nat} {st st' : SpState},
      spLoop graph target fuel st = Pr.ok st' → EndsRel st.edges st'.edges := by
  intro fuel
  induction fuel with
  | zero => intro st st' h; exact Pr.noConfusion h
  | succ n ih =>
    intro st st' h
    unfold spLoop at h
    split at h
    · cases h; exact endsRel_refl _
    · obtain ⟨p, _, h⟩ := bind_ok h
      split at h
      · cases h; exact endsRel_refl _
      · obtain ⟨st2, h2, h⟩ := bind_ok h
        have hr := relaxGo_ends h2
        exact endsRel_trans hr (ih h)

theorem findSP_ends {graph : List (List F)} {mst : List (Option Edge)}
    {location : List Pt} {source target : Int} {sp : SpState}
    (h : findSPGo graph mst location source target = Pr.ok (Except.ok sp)) :
    EndsRel mst sp.edges := by
  unfold findSPGo at h
  split at h
  · simp at h
  · obtain ⟨adj, _, h⟩ := bind_ok h
    obtain ⟨dt1, _, h⟩ := bind_ok h
    obtain ⟨stf, hf, heq⟩ := map_ok h
    injection heq with h2
    subst h2
    exact spLoop_ends hf

theorem walkLoop_ends {ep : Endpoints} {lenEP : F} {location : List Pt}
    {source : Nat} {edgeTo : List (Option Nat)} :
    ∀ {fuel s : Nat} {edges : List (Option Edge)} {g : GridM} {dist : F}
      {out : Nat × List (Option Edge) × GridM × F},
      walkLoop ep lenEP location source edgeTo fuel s edges g dist =
        Pr.ok out →
      EndsRel edges out.2.1 := by
  intro fuel
  induction fuel with
  | zero => intro s edges g dist out h; exact Pr.noConfusion h
  | succ n ih =>
    intro s edges g dist out h
    unfold walkLoop at h
    obtain ⟨oe, _, h⟩ := bind_ok h
    cases oe with
    | none => exact Pr.noConfusion h
    | some e =>
      obtain ⟨pb, _, h⟩ := bind_ok h
      obtain ⟨pe, _, h⟩ := bind_ok h
      obtain ⟨lenEdge, _, h⟩ := bind_ok h
      obtain ⟨g1, _, h⟩ := bind_ok h
      obtain ⟨g2, _, h⟩ := bind_ok h
      obtain ⟨g3, _, h⟩ := bind_ok h
      split at h
      · cases h; exact endsRel_refl _
      · obtain ⟨ons, _, h⟩ := bind_ok h
        cases ons with
        | none => exact Pr.noConfusion h
        | some ns =>
          obtain ⟨one2, hone2, h⟩ := bind_ok h
          cases one2 with
          | none => exact Pr.noConfusion h
          | some e2 =>
            obtain ⟨edges1, he1, h⟩ := bind_ok h
            have hrel : EndsRel edges edges1 := by
              by_cases hne : e2.w ≠ e.v
              · rw [if_pos hne] at he1
                obtain ⟨hu, _⟩ := setL_ok he1
                subst hu
                exact endsRel_flip (getL_ok hone2)
              · rw [if_neg hne] at he1
                cases he1
                exact endsRel_refl _
            exact endsRel_trans hrel (ih h)

theorem plotSP_ends {dsp : DspIn} {out : SpPlotOut}
    (h : plotSPGo dsp = Pr.ok out) : EndsRel dsp.edges out.edges := by
  unfold plotSPGo at h
  split at h
  · cases h; exact endsRel_refl _
  · obtain ⟨dtgt, _, h⟩ := bind_ok h
    split at h
    · cases h; exact endsRel_refl _
    · obtain ⟨lenEP, _, h⟩ := bind_ok h
      obtain ⟨os0, _, h⟩ := bind_ok h
      cases os0 with
      | none => exact Pr.noConfusion h
      | some s0 =>
        obtain ⟨wr, hw, h⟩ := bind_ok h
        obtain ⟨ose, _, h⟩ := bind_ok h
        cases ose with
        | none => exact Pr.noConfusion h
        | some se =>
          obtain ⟨oet, _, h⟩ := bind_ok h
          cases oet with
          | none => exact Pr.noConfusion h
          | some et =>
            obtain ⟨ptgt, _, h⟩ := bind_ok h
            obtain ⟨g4, _, h⟩ := bind_ok h
            obtain ⟨ofe, _, h⟩ := bind_ok h
            cases ofe with
            | none => exact Pr.noConfusion h
            | some fe =>
              obtain ⟨psrc, _, h⟩ := bind_ok h
              obtain ⟨g5, _, h⟩ := bind_ok h
              cases h
              exact walkLoop_ends hw

/-! ### Helper lemmas for the plot and validation theorems -/

theorem gridSet_ok {g g' : GridM} {i : Int} {lbl : String}
    (h : gridSet g i lbl = Pr.ok g') :
    g' = fun j => if j = i.toNat then lbl else g j := by
  unfold gridSet at h
  split at h
  · cases h; rfl
  · exact Pr.noConfusion h

theorem isInvalid_bind_false {α : Type} {a : Pr α}
    {f : α → Pr (Except String SpState)}
    (hf : ∀ x, isInvalidEndpoints (f x) = false) :
    isInvalidEndpoints (Pr.bind a f) = false := by
  cases a with
  | ok x => simpa [Pr.bind] using hf x
  | crash => rfl
  | undef => rfl

theorem isInvalid_map_ok_false (x : Pr SpState) :
    isInvalidEndpoints (Pr.map Except.ok x) = false := by
  cases x <;> rfl

theorem plotSP_sentinel_aux {dsp : DspIn}
    (h : dsp.distTo.get? dsp.target = some maxFloat64) :
    plotSPGo dsp = Pr.ok ⟨dsp.edges, dsp.plot, some (noPathMsg dsp.target)⟩ := by
  have hlen : ¬ dsp.distTo.length = 0 := by
    have := (List.get?_eq_some.mp h).choose
    omega
  have hg : getL dsp.distTo dsp.target = Pr.ok maxFloat64 := by
    unfold getL
    rw [h]
  unfold plotSPGo
  rw [if_neg hlen, hg]
  simp [Pr.bind]

/-! ### Claim theorems -/

/-- Claim C1 (code bug witnessed): on the 3-vertex distance matrix `g3`
the Prim loop of `findMST` pops four items, visiting vertex 2 twice: the
membership probe `pq[w]` (sp.go line 350) keys the map by heap position,
not by vertex, so vertex 2's queued item is not found and a duplicate is
pushed.  The claimed "exactly N pops, one per vertex" fails. -/
theorem findMST_pops_duplicate : mstPops (findMSTGo locs3 g3) = [0, 1, 2, 2] := by
  decide

/-- Claim C2 (counterexample): on the empty distance matrix `findMST` does
not return normally at all, so it does not return an empty tree. -/
theorem findMST_empty_not_ok :
    (findMSTGo ([] : List Pt) ([] : List (List F))).isOk = false := by
  decide

/-- Claim C2 (amended): with no vertices, the seed write
`distTo[0] = math.MaxFloat64` (sp.go line 363) indexes an empty slice, so
`findMST` panics instead of returning an empty tree. -/
theorem findMST_empty_crashes :
    findMSTGo ([] : List Pt) ([] : List (List F)) = Pr.crash := by
  rfl

/-- Claim C8: `findMST` is a pure function of the vertex count and the
distance matrix, so two runs on the same inputs store the same parent
edge in every slot.  (The embedding is deterministic by construction: the
Go priority queue map is only ever accessed by key, never iterated, so no
map-iteration nondeterminism enters the algorithm.) -/
theorem findMST_deterministic (location : List Pt) (graph : List (List F))
    (i : Nat) :
    mstSlot (findMSTGo location graph) i = mstSlot (findMSTGo location graph) i :=
  rfl

/-- Claim C4: whenever the target's relaxed distance still equals the
sentinel `math.MaxFloat64` when `plotSP` runs, `plotSP` returns the
`distance to vertex ... not found` error (sp.go lines 592-594) as a hard
error value and draws nothing. -/
theorem plotSP_signals_no_path (dsp : DspIn)
    (h : dsp.distTo.get? dsp.target = some maxFloat64) :
    plotSPGo dsp = Pr.ok ⟨dsp.edges, dsp.plot, some (noPathMsg dsp.target)⟩ :=
  plotSP_sentinel_aux h

/-- Claim C4 witness: a concrete state with `distTo[target] = MaxFloat64`. -/
theorem plotSP_signals_no_path_witness :
    plotSPGo dspSentinel =
      Pr.ok ⟨dspSentinel.edges, dspSentinel.plot,
        some (noPathMsg dspSentinel.target)⟩ :=
  plotSP_signals_no_path dspSentinel rfl

/-- Claim C10: if the distance array is empty or the target's distance
still equals the sentinel, `plotSP` returns the error immediately, with
the edge store, the grid, and every plot output field exactly as passed
in: no partial overlay is drawn. -/
theorem plotSP_error_immediate (dsp : DspIn)
    (h : dsp.distTo = [] ∨ dsp.distTo.get? dsp.target = some maxFloat64) :
    plotSPGo dsp = Pr.ok ⟨dsp.edges, dsp.plot, some (noPathMsg dsp.target)⟩ := by
  cases h with
  | inl h0 =>
    unfold plotSPGo
    rw [if_pos (by rw [h0]; rfl)]
  | inr hs => exact plotSP_sentinel_aux hs

/-- Claim C10 witness: a concrete state with an empty distance array. -/
theorem plotSP_error_immediate_witness :
    plotSPGo dspNoDist =
      Pr.ok ⟨dspNoDist.edges, dspNoDist.plot, some (noPathMsg dspNoDist.target)⟩ :=
  plotSP_error_immediate dspNoDist (Or.inl rfl)

/-- Claim C5: `findSP` returns the `source and/or target vertices are
invalid` error exactly when the endpoints coincide or either lies outside
`[0, N)` (sp.go lines 515-519); for valid distinct in-range endpoints no
endpoint error is returned. -/
theorem findSP_invalid_endpoints_iff (graph : List (List F))
    (mst : List (Option Edge)) (location : List Pt) (source target : Int) :
    isInvalidEndpoints (findSPGo graph mst location source target) = true ↔
      (source = target ∨ ¬(0 ≤ source ∧ source < (location.length : Int)) ∨
        ¬(0 ≤ target ∧ target < (location.length : Int))) := by
  unfold findSPGo
  split
  case isTrue hc =>
    simp only [isInvalidEndpoints, decide_eq_true_eq]
    constructor
    · intro _; omega
    · intro _; trivial
  case isFalse hc =>
    rw [isInvalid_bind_false (fun adj =>
      isInvalid_bind_false (fun dt1 => isInvalid_map_ok_false _))]
    constructor
    · intro hfalse; exact absurd hfalse (by simp)
    · intro hr; omega

/-- Claim C9: a shortest-path query (`findSP` followed by `plotMST` and
`plotSP`, as the handler runs them) only ever swaps the `v`/`w` fields of
the shared tree edges, so after the query every slot still connects the
same unordered vertex pair as before. -/
theorem spQuery_preserves_unordered_edges
    (ep : Endpoints) (location : List Pt) (graph : List (List F))
    (mst : List (Option Edge)) (source target : Int) (out : SpPlotOut)
    (h : spQueryGo ep location graph mst source target = Pr.ok (Except.ok out)) :
    ∀ i, sameEndsB (mst.get? i) (out.edges.get? i) = true := by
  unfold spQueryGo at h
  obtain ⟨r, hr, h⟩ := bind_ok h
  cases r with
  | error m => exact absurd h (by simp)
  | ok sp =>
    obtain ⟨pm, _, h⟩ := bind_ok h
    obtain ⟨o2, ho2, heq⟩ := map_ok h
    injection heq with h2
    subst h2
    exact fun i => sameEndsB_trans (findSP_ends hr i) (plotSP_ends ho2 i)

/-- Claim C9 witness: on the concrete query `5 -> 0` over `mst6`, slot 5
(originally `{1,5}`, reoriented in place to `{5,1}` by the relaxation)
still connects the unordered pair {1,5}. -/
theorem spQuery_preserves_unordered_edges_witness :
    sameEndsB (mst6.get? 5)
      ((queryEdges (spQueryGo epB locs6 g6 mst6 5 0)).get? 5) = true := by
  have hI : queryOkB (spQueryGo epB locs6 g6 mst6 5 0) = true := by decide
  cases h : spQueryGo epB locs6 g6 mst6 5 0 with
  | ok r =>
    cases r with
    | ok o =>
      have hm := spQuery_preserves_unordered_edges epB locs6 g6 mst6 5 0 o h 5
      simpa [queryEdges, h] using hm
    | error m => rw [h] at hI; exact absurd hI (by simp [queryOkB])
  | crash => rw [h] at hI; exact absurd hI (by simp [queryOkB])
  | undef => rw [h] at hI; exact absurd hI (by simp [queryOkB])

/-- Claim C6 (code bug witnessed): on the spanning tree `mst6` over the
matrix `findDistances` builds from `locs6`, the query `0 -> 5` draws the
path of length 160 while the reverse query `5 -> 0` fails with the
`distance to vertex 0 not found` error: during `relax(5)` the membership
probe `pq[1]` (sp.go line 556) finds heap position 1 (vertex 3's item)
instead of vertex 1, so vertex 1 is never queued and vertex 0 is never
relaxed.  Shortest-path symmetry fails. -/
theorem spQuery_asymmetric :
    findDistancesGo locs6 = Pr.ok g6 ∧
    queryErr (spQueryGo epB locs6 g6 mst6 0 5) = some none ∧
    queryDistSP (spQueryGo epB locs6 g6 mst6 0 5) = some "160.00" ∧
    queryErr (spQueryGo epB locs6 g6 mst6 5 0) = some (some (noPathMsg 0)) := by
  refine ⟨by rfl, by decide, by decide, by decide⟩

/-- Claim C3 (counterexample): with the single vertex at `(0, ymax)` the
MST root maps to grid row 0, and the root highlight of `plotMST`
(sp.go line 461) writes at flat index `(row-1)*columns + col = -300`,
panicking instead of clamping or skipping. -/
theorem plotMST_highlight_crashes_on_border :
    plotMSTGo epB [⟨0, 897⟩] [none] = Pr.crash := by
  rfl

/-- Claim C3 (amended): the five highlight writes are unguarded.  For a
center cell inside the grid, marking succeeds exactly when the row is in
`[1, 298]`: on row 0 or row 299 the vertical neighbour index leaves
`[0, rows*columns)` and the write panics; a center on column 0 or 299
does not panic but wraps through the flat index into the adjacent row. -/
theorem markPlus_succeeds_iff_row_interior (g : GridM) (lbl : String)
    (row col : Int) (hr0 : 0 ≤ row) (hr1 : row ≤ 299) (hc0 : 0 ≤ col)
    (hc1 : col ≤ 299) :
    (markPlus g row col lbl).isOk = true ↔ 1 ≤ row ∧ row ≤ 298 := by
  constructor
  · intro hok
    by_contra hn
    have hcase : row = 0 ∨ row = 299 := by omega
    unfold markPlus gridSet at hok
    simp only [rows, columns] at hok
    rcases hcase with h0 | h299
    · subst h0
      rw [if_pos (by omega)] at hok
      simp only [Pr.bind] at hok
      rw [if_pos (by omega)] at hok
      simp only [Pr.bind] at hok
      rw [if_neg (by omega)] at hok
      simp [Pr.bind, Pr.isOk] at hok
    · subst h299
      rw [if_pos (by omega)] at hok
      simp only [Pr.bind] at hok
      rw [if_neg (by omega)] at hok
      simp [Pr.bind, Pr.isOk] at hok
  · intro hrow
    unfold markPlus gridSet
    simp only [rows, columns]
    rw [if_pos (by omega)]
    simp only [Pr.bind]
    rw [if_pos (by omega)]
    simp only [Pr.bind]
    rw [if_pos (by omega)]
    simp only [Pr.bind]
    rw [if_pos (by omega)]
    simp only [Pr.bind]
    rw [if_pos (by omega)]
    rfl

/-- Claim C3 amended witness: the interior cell (150, 0) is marked
without a panic. -/
theorem markPlus_succeeds_iff_row_interior_witness :
    (markPlus (fun _ => "") 150 0 "startvertexMSS").isOk = true :=
  (markPlus_succeeds_iff_row_interior (fun _ => "") "startvertexMSS" 150 0
    (by norm_num) (by norm_num) (by norm_num) (by norm_num)).mpr
    ⟨by norm_num, by norm_num⟩

/-- Claim C7 (counterexample): rasterizing `mst7` over `locs7`, vertex 1
(an endpoint of the first tree edge) maps to cell (150, 5), flat index
45005; the interpolation of the edge {0,2}, processed later, writes
`edge` over that cell and nothing restores it, so the final label is
`edge`, not `vertex`. -/
theorem plotMST_vertex_cell_overwritten :
    rowOf epB (897/2) = 150 ∧ colOf epB 20 = 5 ∧
    gridAt (plotMSTGo epB locs7 mst7) 45005 = some "edge" := by
  refine ⟨by decide, by decide, by decide⟩

/-- Claim C7 (amended): endpoint precedence holds per edge, not globally:
immediately after one edge-plot step of `plotMST` both endpoint cells of
that edge hold `vertex` (the endpoint writes are the last writes of the
step and overwrite that edge's own `edge` samples), but interpolation
samples of a later edge may overwrite them. -/
theorem plotEdge_endpoints_vertex (ep : Endpoints) (lenEP : F)
    (location : List Pt) (g : GridM) (d : F) (e : Edge) (out : GridM × F)
    (pb pe : Pt) (hb : location.get? e.v = some pb)
    (he : location.get? e.w = some pe)
    (h : plotEdgeGo ep lenEP location g d e = Pr.ok out) :
    out.1 (rowOf ep pe.y * (columns : Int) + colOf ep pe.x).toNat = "vertex" ∧
    out.1 (rowOf ep pb.y * (columns : Int) + colOf ep pb.x).toNat = "vertex" := by
  unfold plotEdgeGo at h
  obtain ⟨pb1, hb1, h⟩ := bind_ok h
  obtain ⟨pe1, he1, h⟩ := bind_ok h
  have hpb : pb1 = pb := by
    have hx := getL_ok hb1
    rw [hb] at hx
    exact (Option.some.inj hx).symm
  have hpe : pe1 = pe := by
    have hx := getL_ok he1
    rw [he] at hx
    exact (Option.some.inj hx).symm
  rw [← hpb, ← hpe]
  obtain ⟨lenEdge, _, h⟩ := bind_ok h
  obtain ⟨g1, _, h⟩ := bind_ok h
  obtain ⟨g2, hg2, h⟩ := bind_ok h
  obtain ⟨g3, hg3, h⟩ := bind_ok h
  cases h
  have e2 := gridSet_ok hg2
  have e3 := gridSet_ok hg3
  constructor
  · rw [e3]
    simp
  · rw [e3]
    simp only []
    by_cases hsame :
        (rowOf ep pb1.y * (columns : Int) + colOf ep pb1.x).toNat =
          (rowOf ep pe1.y * (columns : Int) + colOf ep pe1.x).toNat
    · rw [if_pos hsame]
    · rw [if_neg hsame, e2]
      simp

/-- Claim C7 amended witness: after plotting the edge {0,1} of `locs7`
alone, both of its endpoint cells hold `vertex`. -/
theorem plotEdge_endpoints_vertex_witness :
    edgeVertexCellsB (plotEdgeGo epB 1495 locs7 (fun _ => "") 0 ⟨0, 1⟩) = true := by
  have hI : (plotEdgeGo epB 1495 locs7 (fun _ => "") 0 ⟨0, 1⟩).isOk = true := by
    decide
  cases h : plotEdgeGo epB 1495 locs7 (fun _ => "") 0 ⟨0, 1⟩ with
  | ok out =>
    have hm := plotEdge_endpoints_vertex epB 1495 locs7 (fun _ => "") 0
      ⟨0, 1⟩ out ⟨0, 897/2⟩ ⟨20, 897/2⟩ rfl rfl h
    simp only [edgeVertexCellsB, Bool.and_eq_true, decide_eq_true_eq]
    exact ⟨hm.1, hm.2⟩
  | crash => rw [h] at hI; exact absurd hI (by simp [Pr.isOk])
  | undef => rw [h] at hI; exact absurd hI (by simp [Pr.isOk])

end DijkstraSP
